import Mathlib

/-!
# Verification of the btc-brute-force pipeline

A shallow embedding of `bitcoin-wallet-bruteforce-offline.go`: the bounded
match channel and its single consumer, the batched shared counter, the
statistics reporter arithmetic, the address-set loader, startup error
handling, the worker loop, and the scratch-buffer pool discipline.

External cryptographic capabilities (key generation, hash160, double-SHA256
checksum, Base58) are parameters of the embedding: the spec treats them as
opaque collaborators and no claim depends on their values.  Everything else
is translated directly from the Go source.  Machine integers (`uint64`
counters) never approach their bounds in the properties below, so they are
modelled as `Nat`; the float arithmetic of the statistics reporter is
modelled with exact rationals.
-/

namespace BtcBrute

/-! ## Data model: match records (Go struct `MatchResult`) -/

/-- `MatchResult`: a private key (its 32 serialized bytes) together with the
matching Base58 address, as sent from workers to the match writer. -/
structure MatchResult where
  privateKey : List Nat
  address : String
deriving DecidableEq, Repr

/-! ## The bounded match channel (Go: `matchChan := make(chan MatchResult, 100)`)

The channel is a FIFO buffer of capacity 100.  A send appends to the buffer
and is only enabled while the buffer holds fewer than 100 records (a sender
on a full channel blocks: no transition exists for it).  The single consumer
(`matchWriter`'s `for match := range matchChan` loop) removes the head of
the buffer and appends it to the output.  `submitted` is the history of all
sends, used to state exactly-once delivery. -/

/-- Capacity of the buffered match channel in `main`. -/
def matchChanCapacity : Nat := 100

/-- Observable state of the match pipeline: the channel buffer, the sequence
of records the consumer has written, and the history of submitted records. -/
structure ChanState where
  queue : List MatchResult
  output : List MatchResult
  submitted : List MatchResult
deriving DecidableEq, Repr

/-- Initial pipeline state: empty channel, nothing written, nothing sent. -/
def ChanState.init : ChanState := ⟨[], [], []⟩

/-- One step of the match pipeline: either some worker sends a record into
the channel (enabled only below capacity — a worker facing a full channel
blocks), or the consumer dequeues the head record and writes it. -/
inductive ChanStep : ChanState → ChanState → Prop where
  | send (r : MatchResult) (s : ChanState)
      (h : s.queue.length < matchChanCapacity) :
      ChanStep s ⟨s.queue ++ [r], s.output, s.submitted ++ [r]⟩
  | recv (r : MatchResult) (q : List MatchResult) (s : ChanState)
      (h : s.queue = r :: q) :
      ChanStep s ⟨q, s.output ++ [r], s.submitted⟩

/-- States reachable from the initial pipeline state by channel steps. -/
inductive ChanReachable : ChanState → Prop where
  | init : ChanReachable ChanState.init
  | step {s t : ChanState} : ChanReachable s → ChanStep s t → ChanReachable t

/-! ## Batched counter updates (Go: `worker`, lines 302–323)

Each worker keeps a private `localCounter`; after every successful
generation it increments it, and when `localCounter % 10000 == 0` it adds
`updateInterval` to the shared atomic counter and resets the private one.
There is no other write to the shared counter anywhere in the program: in
particular no shutdown or cancellation path flushes a partial batch. -/

/-- `updateInterval`: the worker flushes its private counter to the shared
counter every 10,000 successful generations. -/
def updateInterval : Nat := 10000

/-- A worker's counter state: its private `localCounter` and the amount it
has contributed so far to the shared atomic counter. -/
structure WorkerCounter where
  localCounter : Nat
  shared : Nat
deriving DecidableEq, Repr

/-- The counter bookkeeping a worker performs after one successful
`generateKeyAndAddress` call: increment the private counter and, when it
reaches a multiple of `updateInterval`, add `updateInterval` to the shared
counter and reset the private counter to zero. -/
def workerCounterStep (w : WorkerCounter) : WorkerCounter :=
  let l := w.localCounter + 1
  if l % updateInterval = 0 then ⟨0, w.shared + updateInterval⟩
  else ⟨l, w.shared⟩

/-- A worker's counter state after `k` successful generator calls, starting
from `localCounter = 0` and zero contribution. -/
def workerCounterAfter : Nat → WorkerCounter
  | 0 => ⟨0, 0⟩
  | k + 1 => workerCounterStep (workerCounterAfter k)

/-- The shared counter value at an instant when the workers have completed
`ks = [k₁, …, k_W]` successful generator calls respectively: the sum of the
per-worker contributions.  (The only mutation of the shared counter in the
program is the `atomic.AddUint64(counter, updateInterval)` inside
`workerCounterStep`.) -/
def sharedCounterTotal (ks : List Nat) : Nat :=
  (ks.map fun k => (workerCounterAfter k).shared).sum

/-! ## Statistics reporter (Go: `statsReporter`, lines 454–486)

On each tick the reporter atomically loads the counter, computes the overall
rate `total / elapsed-since-start` and the instantaneous rate
`(total − lastTotal) / (now − lastTime)`, prints them, and stores the
current total and timestamp for the next tick.  Times are in seconds,
modelled as exact rationals; the counter is a `uint64`, so the Go
subtraction `total - lastTotal` is `Nat` truncated subtraction (the counter
is monotone, so it never underflows in a real run). -/

/-- The reporter's private baseline: the counter value and the timestamp it
saw at the previous tick (initially `0` and the process start time). -/
structure StatsState where
  lastTotal : Nat
  lastTime : ℚ
deriving DecidableEq, Repr

/-- One line printed by the reporter: total, overall rate, instantaneous
rate, elapsed runtime. -/
structure StatsReport where
  total : Nat
  overallRate : ℚ
  instantRate : ℚ
  runtime : ℚ
deriving DecidableEq, Repr

/-- One tick of `statsReporter`: given the process start time, the loaded
counter value and the current time, produce the printed report and the
updated baseline. -/
def statsTick (startTime : ℚ) (counter : Nat) (now : ℚ) (s : StatsState) :
    StatsReport × StatsState :=
  let elapsed : ℚ := now - startTime
  let overallRate : ℚ := (counter : ℚ) / elapsed
  let intervalKeys : Nat := counter - s.lastTotal
  let intervalTime : ℚ := now - s.lastTime
  let instantRate : ℚ := (intervalKeys : ℚ) / intervalTime
  (⟨counter, overallRate, instantRate, elapsed⟩, ⟨counter, now⟩)

/-! ## Match writer (Go: `matchWriter`, lines 379–413)

The consumer opens the output file once in append mode, then for each
dequeued record writes `hex(privateKey) ++ ":" ++ address ++ "\n"` and
flushes immediately.  A failed `WriteString` is logged and the loop
continues with the next record (the flush still runs).  The `writer.Flush()`
call's error value is discarded by the source — a failed flush is never
logged and has no effect on control flow.  We model the file as the string
of its contents (append mode: the initial contents stay as a prefix) and
count flush attempts, logged failures, and processed records; each record
carries two I/O oracles, one for the outcome of its `WriteString` and one
for the outcome of its `Flush`. -/

/-- One byte as two lowercase hex characters (Go `encoding/hex` writes the
high nibble then the low nibble with digits 0-9a-f, which is exactly what
`Nat.digitChar` yields on 0..15). -/
def byteToHex (b : Nat) : String :=
  String.mk [Nat.digitChar (b / 16 % 16), Nat.digitChar (b % 16)]

/-- Go's `hex.EncodeToString` on a byte slice. -/
def hexEncodeToString (bs : List Nat) : String :=
  String.join (bs.map byteToHex)

/-- The line the match writer produces for one record:
`fmt.Sprintf("%s:%s\n", privKeyHex, match.address)`. -/
def renderMatch (m : MatchResult) : String :=
  hexEncodeToString m.privateKey ++ ":" ++ m.address ++ "\n"

/-- Concatenation of a list of strings (the successive chunks appended to
the output file). -/
def concatAll : List String → String
  | [] => ""
  | s :: rest => s ++ concatAll rest

/-- Observable state of the match writer: the output file contents, how many
flush attempts have been made, how many failures have been logged, and how
many records have been processed. -/
structure WriterState where
  fileContent : String
  flushCount : Nat
  logCount : Nat
  processedCount : Nat
deriving DecidableEq, Repr

/-- One iteration of the match writer loop on a dequeued record: attempt the
write (on failure, log and keep the contents unchanged — no retry), then
call `Flush`, then continue.  `writeOk` is the I/O outcome of this record's
`WriteString`; `_flushOk` is the I/O outcome of its `Flush`, and it is bound
but never consulted — the Go source discards `writer.Flush()`'s error, so a
failed flush produces no log entry and changes no control flow. -/
def matchWriterStep (s : WriterState) (m : MatchResult)
    (writeOk _flushOk : Bool) : WriterState :=
  { fileContent := if writeOk then s.fileContent ++ renderMatch m else s.fileContent
    flushCount := s.flushCount + 1
    logCount := if writeOk then s.logCount else s.logCount + 1
    processedCount := s.processedCount + 1 }

/-- The match writer run on a sequence of dequeued records (each paired with
the outcome of its write and the outcome of its flush), starting from the
file's pre-existing contents (the file is opened once with
`O_APPEND|O_CREATE|O_WRONLY`). -/
def matchWriterRun (initialContent : String)
    (ms : List (MatchResult × Bool × Bool)) : WriterState :=
  ms.foldl (fun s p => matchWriterStep s p.1 p.2.1 p.2.2) ⟨initialContent, 0, 0, 0⟩

/-! ## Address database loading (Go: `readAddresses`, lines 122–146)

The file is scanned line by line and every line is inserted as a key of a
Go map used as a set (`addresses[scanner.Text()] = true`).  We model the
map's key set as a `Finset String` and the scanned file as its list of
lines. -/

/-- `readAddresses`: insert each line of the file into the address set. -/
def readAddresses (lines : List String) : Finset String :=
  lines.foldl (fun addresses line => insert line addresses) ∅

/-! ## Startup (Go: `main`, lines 553–613, and `matchWriter`, lines 384–387)

`main` exits with usage text and code 1 when `len(os.Args) != 4`; it calls
`log.Fatalf` (log and exit code 1) when `strconv.Atoi` fails on the thread
count, when the parsed count is `< 1`, or when `readAddresses` fails; and
`matchWriter` calls `log.Fatalf` when the output file cannot be opened.
The embedding abstracts the three fallible environment interactions as
oracle inputs and records which exit the program takes. -/

/-- How startup ends: usage text plus `os.Exit(1)`, a `log.Fatalf` (which
exits with the given nonzero code), or a running pipeline. -/
inductive StartupResult where
  | usageExit (exitCode : Nat)
  | fatalExit (exitCode : Nat)
  | started (numThreads : Int) (addresses : Finset String)
deriving DecidableEq

/-- Startup control flow of `main` (with the output-file open from
`matchWriter`, which also precedes any steady-state work): `argCount` is
`len(os.Args)`, `threadsParse` the result of `strconv.Atoi(os.Args[1])`,
`addressesRead` the result of reading the address file, `outputOpenOk`
whether the output file opens. -/
def startup (argCount : Nat) (threadsParse : Option Int)
    (addressesRead : Option (List String)) (outputOpenOk : Bool) :
    StartupResult :=
  if argCount ≠ 4 then .usageExit 1
  else
    match threadsParse with
    | none => .fatalExit 1
    | some numThreads =>
      if numThreads < 1 then .fatalExit 1
      else
        match addressesRead with
        | none => .fatalExit 1
        | some lines =>
          if !outputOpenOk then .fatalExit 1
          else .started numThreads (readAddresses lines)

/-! ## Worker loop (Go: `worker`, lines 298–337)

Each iteration invokes the generator.  On failure it logs and `continue`s —
nothing else happens that iteration.  On success it increments the private
counter, possibly flushes a batch to the shared counter, tests the address
against the database, and on a hit sends a `MatchResult` into the channel.
The generator is abstracted as a sequence of outcomes. -/

/-- Outcome of one `generateKeyAndAddress` call as seen by the worker. -/
inductive GenResult where
  | ok (privKey : List Nat) (address : String)
  | failure (msg : String)
deriving DecidableEq, Repr

/-- Whether a generator outcome is a success. -/
def GenResult.isOk : GenResult → Bool
  | .ok _ _ => true
  | .failure _ => false

/-- A worker's observable state: its private counter, its contribution to
the shared counter, the matches it has sent into the channel (in order),
and how many generator failures it has logged. -/
structure WorkerState where
  localCounter : Nat
  shared : Nat
  sentMatches : List MatchResult
  genFailureLogs : Nat
deriving DecidableEq, Repr

/-- One iteration of the worker loop with generator outcome `g`.  On
failure: log and `continue` (no counter change, no membership test, no
send).  On success: private counter increment, batched shared-counter
update, membership test, send on a hit. -/
def workerIter (btcAddresses : Finset String) (s : WorkerState) (g : GenResult) :
    WorkerState :=
  match g with
  | .failure _ => { s with genFailureLogs := s.genFailureLogs + 1 }
  | .ok privKey publicAddress =>
    let l := s.localCounter + 1
    let counters : Nat × Nat :=
      if l % updateInterval = 0 then (0, s.shared + updateInterval)
      else (l, s.shared)
    let sent :=
      if publicAddress ∈ btcAddresses then s.sentMatches ++ [⟨privKey, publicAddress⟩]
      else s.sentMatches
    ⟨counters.1, counters.2, sent, s.genFailureLogs⟩

/-- The worker loop run over a finite prefix `gs` of generator outcomes. -/
def workerRun (btcAddresses : Finset String) (s : WorkerState)
    (gs : List GenResult) : WorkerState :=
  gs.foldl (workerIter btcAddresses) s

/-- The initial worker state. -/
def WorkerState.init : WorkerState := ⟨0, 0, [], 0⟩

/-! ## Scratch buffer pool (Go: `generateKeyAndAddress`, lines 190–237, and
`bufferPool`, lines 83–87)

`generateKeyAndAddress` returns early if `btcec.NewPrivateKey()` fails —
before any pool interaction.  On the success path it borrows one buffer
(`bufferPool.Get()`), immediately defers `bufferPool.Put(buf)`, builds the
25-byte payload and the address in the buffer, and the deferred `Put` runs
when the function returns.  The cryptographic primitives are opaque
parameters; the pool interactions are recorded as an event trace. -/

/-- A buffer-pool interaction: `bufferPool.Get()` or `bufferPool.Put(_)`. -/
inductive PoolEvent where
  | get
  | put
deriving DecidableEq, Repr

/-- Result of one `generateKeyAndAddress` call: the returned
(private key, address) pair, or `none` on generator failure, together with
the buffer-pool events the call performed, in order. -/
structure GenOutcome where
  result : Option (List Nat × String)
  poolEvents : List PoolEvent
deriving DecidableEq, Repr

/-- `generateKeyAndAddress`: `newPrivateKey` is the outcome of
`btcec.NewPrivateKey()` (its serialized bytes, or `none` on failure);
`hash160` stands for `btcutil.Hash160` applied to the compressed public
key of the given private key; `checksum4` for the first four bytes of the
double SHA-256; `base58Encode` for `base58.Encode`. -/
def generateKeyAndAddress (newPrivateKey : Option (List Nat))
    (hash160 : List Nat → List Nat) (checksum4 : List Nat → List Nat)
    (base58Encode : List Nat → String) : GenOutcome :=
  match newPrivateKey with
  | none => { result := none, poolEvents := [] }
  | some privateKey =>
    let h160 := hash160 privateKey
    let buf : List Nat := []
    let buf := buf ++ [0x00]
    let buf := buf ++ h160
    let buf := buf ++ checksum4 buf
    let address := base58Encode buf
    { result := some (privateKey, address)
      poolEvents := [PoolEvent.get] ++ [PoolEvent.put] }

/-! ## Helper lemmas -/

/-- Invariant of the match pipeline: in every reachable state the output so
far followed by the still-buffered records is exactly the submission
history, and the buffer never holds more than the capacity. -/
theorem chan_inv {s : ChanState} (h : ChanReachable s) :
    s.output ++ s.queue = s.submitted ∧ s.queue.length ≤ matchChanCapacity := by
  induction h with
  | init => exact ⟨rfl, by decide⟩
  | @step t u hr hstep ih =>
    cases hstep with
    | send r s' ht =>
      refine ⟨?_, ?_⟩
      · show t.output ++ (t.queue ++ [r]) = t.submitted ++ [r]
        rw [← List.append_assoc, ih.1]
      · show (t.queue ++ [r]).length ≤ matchChanCapacity
        rw [List.length_append]
        simp only [matchChanCapacity] at ht ⊢
        simp only [List.length_singleton]
        omega
    | recv r q s' ht =>
      refine ⟨?_, ?_⟩
      · show (t.output ++ [r]) ++ q = t.submitted
        rw [List.append_assoc, List.singleton_append, ← ht, ih.1]
      · have h2 := ih.2
        rw [ht] at h2
        simp only [List.length_cons] at h2
        show q.length ≤ matchChanCapacity
        omega

/-- Closed form of a worker's counter state after `k` successful calls. -/
theorem workerCounterAfter_eq (k : Nat) :
    workerCounterAfter k =
      ⟨k % updateInterval, updateInterval * (k / updateInterval)⟩ := by
  induction k with
  | zero => rfl
  | succ k ih =>
    have hstep : workerCounterAfter (k + 1) = workerCounterStep (workerCounterAfter k) := rfl
    rw [hstep, ih]
    simp only [workerCounterStep, updateInterval]
    split
    · simp only [WorkerCounter.mk.injEq]
      constructor <;> omega
    · simp only [WorkerCounter.mk.injEq]
      constructor <;> omega

/-- The shared counter at per-worker progresses `ks` in closed form. -/
theorem sharedCounterTotal_eq (ks : List Nat) :
    sharedCounterTotal ks =
      (ks.map fun k => updateInterval * (k / updateInterval)).sum := by
  simp [sharedCounterTotal, workerCounterAfter_eq]

/-- The batched sum reaches the true sum exactly when every worker's count
is a multiple of the batch size. -/
theorem sum_batch_iff (ks : List Nat) :
    (ks.map fun k => updateInterval * (k / updateInterval)).sum = ks.sum ↔
      ∀ k ∈ ks, updateInterval ∣ k := by
  induction ks with
  | nil => simp
  | cons k ks ih =>
    simp only [List.map_cons, List.sum_cons, List.mem_cons, updateInterval] at ih ⊢
    have hk : 10000 * (k / 10000) ≤ k := by omega
    have hS : (List.map (fun x => 10000 * (x / 10000)) ks).sum ≤
        (List.map (fun x => x) ks).sum :=
      List.sum_le_sum fun i _ => by omega
    rw [List.map_id'] at hS
    constructor
    · intro h
      have h2 : (List.map (fun x => 10000 * (x / 10000)) ks).sum = ks.sum := by omega
      have h1 : (10000 : Nat) ∣ k := by omega
      intro x hx
      rcases hx with rfl | hx
      · exact h1
      · exact (ih.mp h2) x hx
    · intro h
      have h1 : (10000 : Nat) ∣ k := h k (Or.inl rfl)
      have h2 := ih.mpr fun x hx => h x (Or.inr hx)
      omega

/-! ## The claims -/

/-- C1: every Match Record a worker submits to the bounded match queue
(capacity 100) is neither dropped nor duplicated: a send is only enabled
while the buffer is below capacity (a worker facing a full queue blocks),
and in every reachable pipeline state the consumer's output followed by the
still-queued records equals the submission history — so each record's
multiplicity is preserved, the buffer never exceeds the capacity, and once
the consumer has drained the queue the output is exactly the submitted
records, in the FIFO order they were dequeued. -/
theorem matchQueue_exactly_once (s : ChanState) (h : ChanReachable s) :
    s.output ++ s.queue = s.submitted ∧
    (∀ r : MatchResult, s.output.count r + s.queue.count r = s.submitted.count r) ∧
    s.queue.length ≤ matchChanCapacity ∧
    (s.queue = [] → s.output = s.submitted) := by
  obtain ⟨hkey, hcap⟩ := chan_inv h
  refine ⟨hkey, ?_, hcap, ?_⟩
  · intro r
    rw [← hkey, List.count_append]
  · intro hq
    rw [hq] at hkey
    simpa using hkey

/-- C1, witnessed on the concrete run that submits one record and then
dequeues it: the output equals the submission history. -/
theorem matchQueue_exactly_once_witness :
    (ChanState.mk [] [⟨[1], "1test"⟩] [⟨[1], "1test"⟩]).output =
      (ChanState.mk [] [⟨[1], "1test"⟩] [⟨[1], "1test"⟩]).submitted := by
  have h1 : ChanStep ChanState.init ⟨[⟨[1], "1test"⟩], [], [⟨[1], "1test"⟩]⟩ :=
    ChanStep.send ⟨[1], "1test"⟩ ChanState.init (by decide)
  have h2 : ChanStep ⟨[⟨[1], "1test"⟩], [], [⟨[1], "1test"⟩]⟩
      ⟨[], [⟨[1], "1test"⟩], [⟨[1], "1test"⟩]⟩ :=
    ChanStep.recv ⟨[1], "1test"⟩ [] ⟨[⟨[1], "1test"⟩], [], [⟨[1], "1test"⟩]⟩ rfl
  exact (matchQueue_exactly_once _
    (ChanReachable.step (ChanReachable.step ChanReachable.init h1) h2)).2.2.2 rfl

/-- C2 (amended): after `k` successful generator calls a worker has added
exactly `B⌊k/B⌋` to the shared counter with `B = 10000`, its contribution is
monotone, and a point-in-time read under-reports the worker's true count by
at most `B − 1`; after `W` workers each complete `V` calls the shared
counter is `W·B⌊V/B⌋` — there is no final partial-batch flush in the code,
so this equals `W×V` exactly when `B` divides `V`. -/
theorem worker_counter_batches (k V W : Nat) :
    (workerCounterAfter k).shared = updateInterval * (k / updateInterval) ∧
    (∀ k', k ≤ k' → (workerCounterAfter k).shared ≤ (workerCounterAfter k').shared) ∧
    k - (workerCounterAfter k).shared ≤ updateInterval - 1 ∧
    sharedCounterTotal (List.replicate W V) =
      W * (updateInterval * (V / updateInterval)) ∧
    (updateInterval ∣ V → sharedCounterTotal (List.replicate W V) = W * V) := by
  have hrep : sharedCounterTotal (List.replicate W V) =
      W * (updateInterval * (V / updateInterval)) := by
    rw [sharedCounterTotal_eq, List.map_replicate, List.sum_replicate, smul_eq_mul]
  refine ⟨?_, ?_, ?_, hrep, ?_⟩
  · rw [workerCounterAfter_eq]
  · intro k' hk
    rw [workerCounterAfter_eq, workerCounterAfter_eq]
    simp only [updateInterval]
    omega
  · rw [workerCounterAfter_eq]
    simp only [updateInterval]
    omega
  · intro hdvd
    rw [hrep, Nat.mul_div_cancel' hdvd]

/-- C2 fails as stated: take `W = 1` worker completing `V = 1` successful
call.  No code path flushes the final partial batch, so the shared counter
reads `0`, not `W × V = 1`. -/
theorem worker_counter_batches_cex :
    sharedCounterTotal (List.replicate 1 1) = 0 ∧
      sharedCounterTotal (List.replicate 1 1) ≠ 1 * 1 := by
  constructor <;> decide

/-- C10: at every instant (any vector `ks` of per-worker successful-call
counts) the shared counter is an exact multiple of the batch size 10,000 —
the only mutation is an add of the full batch value and no path flushes a
partial private batch — and it equals the true total of successful
generations exactly when every worker's count is itself a multiple of
10,000. -/
theorem counter_always_batch_multiple (ks : List Nat) :
    updateInterval ∣ sharedCounterTotal ks ∧
    (sharedCounterTotal ks = ks.sum ↔ ∀ k ∈ ks, updateInterval ∣ k) := by
  constructor
  · rw [sharedCounterTotal_eq]
    refine List.dvd_sum ?_
    intro x hx
    rcases List.mem_map.mp hx with ⟨k, _, rfl⟩
    exact dvd_mul_right updateInterval (k / updateInterval)
  · rw [sharedCounterTotal_eq]
    exact sum_batch_iff ks

/-- C3 (amended): on every tick the reported overall rate is the counter
total divided by the elapsed time since start, and the instantaneous rate is
the counter delta since the previous tick divided by the time since that
tick; if the counter is identical at two consecutive ticks the instantaneous
rate is 0, and the overall rate strictly decreases provided the total is
positive (when the total is 0 both overall rates are 0). -/
theorem statsReporter_rates (startTime t1 t2 : ℚ) (total : Nat) (s0 : StatsState)
    (h1 : startTime < t1) (h2 : t1 < t2) (hpos : 0 < total) :
    ((statsTick startTime total t1 s0).1.overallRate
        = (total : ℚ) / (t1 - startTime)) ∧
    ((statsTick startTime total t1 s0).1.instantRate
        = ((total - s0.lastTotal : Nat) : ℚ) / (t1 - s0.lastTime)) ∧
    ((statsTick startTime total t2 (statsTick startTime total t1 s0).2).1.instantRate
        = 0) ∧
    ((statsTick startTime total t2 (statsTick startTime total t1 s0).2).1.overallRate
        < (statsTick startTime total t1 s0).1.overallRate) := by
  refine ⟨rfl, rfl, ?_, ?_⟩
  · simp [statsTick]
  · show (total : ℚ) / (t2 - startTime) < (total : ℚ) / (t1 - startTime)
    refine div_lt_div_of_pos_left ?_ ?_ ?_
    · exact_mod_cast hpos
    · linarith
    · linarith

/-- C3, witnessed at start time 0, ticks at 10 and 20 seconds, counter stuck
at 5: the second tick reports instantaneous rate 0 and a strictly smaller
overall rate. -/
theorem statsReporter_rates_witness :
    ((statsTick 0 5 20 (statsTick 0 5 10 ⟨0, 0⟩).2).1.instantRate = 0) ∧
    ((statsTick 0 5 20 (statsTick 0 5 10 ⟨0, 0⟩).2).1.overallRate
        < (statsTick 0 5 10 ⟨0, 0⟩).1.overallRate) := by
  have h := statsReporter_rates 0 10 20 5 ⟨0, 0⟩ (by norm_num) (by norm_num)
    (by norm_num)
  exact ⟨h.2.2.1, h.2.2.2⟩

/-- C3 is false as stated: with the counter stuck at 0 for two consecutive
ticks (start 0, ticks at 10 and 20 seconds), the instantaneous rate is 0 but
the overall rate does not strictly decrease — it stays 0. -/
theorem statsReporter_rates_cex :
    ((statsTick 0 0 20 (statsTick 0 0 10 ⟨0, 0⟩).2).1.instantRate = 0) ∧
    ¬ ((statsTick 0 0 20 (statsTick 0 0 10 ⟨0, 0⟩).2).1.overallRate
        < (statsTick 0 0 10 ⟨0, 0⟩).1.overallRate) := by
  constructor
  · norm_num [statsTick]
  · norm_num [statsTick]

/-- Closed form of the match-writer loop from any starting state: the
contents grow by the successfully written lines, a flush is attempted per
record, and exactly the write failures are logged — the flush outcomes
influence nothing. -/
theorem matchWriter_foldl (s : WriterState) (ps : List (MatchResult × Bool × Bool)) :
    ps.foldl (fun t p => matchWriterStep t p.1 p.2.1 p.2.2) s =
      ⟨s.fileContent ++ concatAll ((ps.filter fun p => p.2.1).map fun p => renderMatch p.1),
       s.flushCount + ps.length,
       s.logCount + (ps.filter fun p => !p.2.1).length,
       s.processedCount + ps.length⟩ := by
  induction ps generalizing s with
  | nil => simp [concatAll]
  | cons p ps ih =>
    obtain ⟨m, wok, fok⟩ := p
    rw [List.foldl_cons, ih]
    cases wok <;>
      simp [matchWriterStep, concatAll, List.filter_cons, String.append_assoc,
        WriterState.mk.injEq] <;>
      omega

/-- C4: for every dequeued record the consumer appends exactly one
newline-terminated line `hex(privateKey):address` to the output (one line
per record, in dequeue order), flushes after every single record (flush
count equals record count, not batched), and the destination is opened once
in append mode so the pre-existing contents remain as a prefix. -/
theorem matchWriter_format (initialContent : String) (ms : List MatchResult) :
    ((matchWriterRun initialContent (ms.map fun m => (m, true, true))).fileContent
        = initialContent ++ concatAll (ms.map renderMatch)) ∧
    ((matchWriterRun initialContent (ms.map fun m => (m, true, true))).flushCount
        = ms.length) ∧
    (∀ m : MatchResult, renderMatch m
        = (hexEncodeToString m.privateKey ++ ":" ++ m.address) ++ "\n") := by
  have h : matchWriterRun initialContent (ms.map fun m => (m, true, true)) =
      ⟨initialContent ++ concatAll ((((ms.map fun m => (m, true, true)).filter
            fun p => p.2.1).map fun p => renderMatch p.1)),
       0 + (ms.map fun m => (m, true, true)).length,
       0 + ((ms.map fun m => (m, true, true)).filter fun p => !p.2.1).length,
       0 + (ms.map fun m => (m, true, true)).length⟩ :=
    matchWriter_foldl ⟨initialContent, 0, 0, 0⟩ (ms.map fun m => (m, true, true))
  rw [h]
  refine ⟨?_, ?_, fun m => rfl⟩
  · have hf : (List.filter (fun p => p.2.1) (List.map (fun m => (m, true, true)) ms))
        = List.map (fun m => (m, true, true)) ms := by
      refine List.filter_eq_self.mpr ?_
      intro a ha
      rcases List.mem_map.mp ha with ⟨m, _, rfl⟩
      rfl
    rw [hf, List.map_map]
    rfl
  · simp

/-- C8 (amended): a failed write of an individual record is logged (one log
per write failure) and the consumer continues: every record in the dequeued
sequence — whatever its write and flush outcomes — is processed exactly
once, the failed record's line is simply absent from the output (no retry),
the flush is still attempted for every record, and the run completes over
the whole sequence instead of terminating.  A failed flush, by contrast, is
never logged: the log count equals the number of write failures alone, with
the flush outcomes contributing nothing. -/
theorem matchWriter_continues_on_failure (initialContent : String)
    (ps : List (MatchResult × Bool × Bool)) :
    ((matchWriterRun initialContent ps).processedCount = ps.length) ∧
    ((matchWriterRun initialContent ps).logCount
        = (ps.filter fun p => !p.2.1).length) ∧
    ((matchWriterRun initialContent ps).fileContent
        = initialContent ++
            concatAll ((ps.filter fun p => p.2.1).map fun p => renderMatch p.1)) ∧
    ((matchWriterRun initialContent ps).flushCount = ps.length) := by
  have h : matchWriterRun initialContent ps =
      ⟨initialContent ++ concatAll ((ps.filter fun p => p.2.1).map fun p => renderMatch p.1),
       0 + ps.length,
       0 + (ps.filter fun p => !p.2.1).length,
       0 + ps.length⟩ :=
    matchWriter_foldl ⟨initialContent, 0, 0, 0⟩ ps
  rw [h]
  refine ⟨by simp, by simp, rfl, by simp⟩

/-- C8 is false as stated for the flush half: a record whose write succeeds
but whose flush fails is processed (flush attempted once) yet nothing is
ever logged — `matchWriter` discards `writer.Flush()`'s error. -/
theorem matchWriter_flush_unlogged_cex :
    ((matchWriterRun "" [(⟨[0], "1a"⟩, true, false)]).logCount = 0) ∧
    ¬ (1 ≤ (matchWriterRun "" [(⟨[0], "1a"⟩, true, false)]).logCount) ∧
    ((matchWriterRun "" [(⟨[0], "1a"⟩, true, false)]).flushCount = 1) ∧
    ((matchWriterRun "" [(⟨[0], "1a"⟩, true, false)]).processedCount = 1) := by
  refine ⟨rfl, ?_, rfl, rfl⟩
  intro h
  simp [matchWriterRun, matchWriterStep] at h

/-- Folding map-insertion over a list of lines builds the union with the
list's set of members. -/
theorem foldl_insert_toFinset (lines : List String) (s : Finset String) :
    lines.foldl (fun addresses line => insert line addresses) s
      = s ∪ lines.toFinset := by
  induction lines generalizing s with
  | nil => simp
  | cons a l ih =>
    rw [List.foldl_cons, ih, List.toFinset_cons]
    ext x
    simp


/-- `readAddresses` builds exactly the set of lines of the file. -/
theorem readAddresses_eq (lines : List String) :
    readAddresses lines = lines.toFinset := by
  rw [readAddresses, foldl_insert_toFinset]
  simp

/-- C5: loading a membership list yields a set whose members are exactly the
distinct lines of the source — membership is exact (case-sensitive) string
equality against the loaded lines, duplicates collapse, and the set's size
equals the number of distinct lines. -/
theorem readAddresses_distinct_lines (lines : List String) :
    (∀ a : String, a ∈ readAddresses lines ↔ a ∈ lines) ∧
    (readAddresses lines).card = lines.dedup.length := by
  rw [readAddresses_eq]
  exact ⟨fun a => List.mem_toFinset, List.card_toFinset lines⟩

/-- `startup` always ends in usage text with exit code 1, a fatal log with
exit code 1, or a started pipeline. -/
theorem startup_range (argCount : Nat) (threadsParse : Option Int)
    (addressesRead : Option (List String)) (outputOpenOk : Bool) :
    startup argCount threadsParse addressesRead outputOpenOk = .usageExit 1 ∨
    startup argCount threadsParse addressesRead outputOpenOk = .fatalExit 1 ∨
    ∃ (n : Int) (addrs : Finset String),
      startup argCount threadsParse addressesRead outputOpenOk
        = .started n addrs := by
  by_cases h4 : argCount ≠ 4
  · exact Or.inl (by simp [startup, h4])
  · rcases threadsParse with _ | n
    · exact Or.inr (Or.inl (by simp [startup, h4]))
    · by_cases hn : n < 1
      · exact Or.inr (Or.inl (by simp [startup, h4, hn]))
      · rcases addressesRead with _ | lines
        · exact Or.inr (Or.inl (by simp [startup, h4, hn]))
        · by_cases ho : outputOpenOk
          · exact Or.inr (Or.inr ⟨n, readAddresses lines,
              by simp [startup, h4, hn, ho]⟩)
          · exact Or.inr (Or.inl (by simp [startup, h4, hn, ho]))

/-- C6: with a wrong argument count the program prints usage and exits with
code 1; with an unparsable or non-positive worker count, an unreadable
membership list, or an unopenable output destination it exits via a fatal
log with a nonzero code (`log.Fatalf` exits 1) before the steady-state
pipeline; and no exit path carries code 0. -/
theorem startup_error_handling (argCount : Nat) (threadsParse : Option Int)
    (addressesRead : Option (List String)) (outputOpenOk : Bool) :
    (argCount ≠ 4 →
      startup argCount threadsParse addressesRead outputOpenOk = .usageExit 1) ∧
    (argCount = 4 → threadsParse = none →
      startup argCount threadsParse addressesRead outputOpenOk = .fatalExit 1) ∧
    (∀ n : Int, argCount = 4 → threadsParse = some n → n < 1 →
      startup argCount threadsParse addressesRead outputOpenOk = .fatalExit 1) ∧
    (∀ n : Int, argCount = 4 → threadsParse = some n → 1 ≤ n →
      addressesRead = none →
      startup argCount threadsParse addressesRead outputOpenOk = .fatalExit 1) ∧
    (∀ (n : Int) (lines : List String), argCount = 4 → threadsParse = some n →
      1 ≤ n → addressesRead = some lines → outputOpenOk = false →
      startup argCount threadsParse addressesRead outputOpenOk = .fatalExit 1) ∧
    (startup argCount threadsParse addressesRead outputOpenOk ≠ .usageExit 0) ∧
    (startup argCount threadsParse addressesRead outputOpenOk ≠ .fatalExit 0) := by
  refine ⟨?_, ?_, ?_, ?_, ?_, ?_, ?_⟩
  · intro h
    simp [startup, h]
  · intro h4 hp
    simp [startup, h4, hp]
  · intro n h4 hp hn
    simp [startup, h4, hp, hn]
  · intro n h4 hp hn ha
    simp [startup, h4, hp, ha, Int.not_lt.mpr hn]
  · intro n lines h4 hp hn ha ho
    simp [startup, h4, hp, ha, ho, Int.not_lt.mpr hn]
  · rcases startup_range argCount threadsParse addressesRead outputOpenOk with
      h | h | ⟨n, addrs, h⟩ <;> rw [h] <;> simp
  · rcases startup_range argCount threadsParse addressesRead outputOpenOk with
      h | h | ⟨n, addrs, h⟩ <;> rw [h] <;> simp

/-- The worker run splits into the run over the successful generator
outcomes plus one log per failure: a failure changes nothing else and never
stops the remaining iterations. -/
theorem workerRun_decompose (btcAddresses : Finset String) (s : WorkerState)
    (gs : List GenResult) :
    workerRun btcAddresses s gs =
      { workerRun btcAddresses ⟨s.localCounter, s.shared, s.sentMatches, 0⟩
          (gs.filter GenResult.isOk) with
        genFailureLogs :=
          s.genFailureLogs + (gs.filter fun g => !g.isOk).length } := by
  induction gs generalizing s with
  | nil => simp [workerRun]
  | cons g gs ih =>
    cases g with
    | ok pk addr =>
      have hL : workerRun btcAddresses s (GenResult.ok pk addr :: gs)
          = workerRun btcAddresses (workerIter btcAddresses s (.ok pk addr)) gs := rfl
      have hfil : List.filter GenResult.isOk (GenResult.ok pk addr :: gs)
          = GenResult.ok pk addr :: List.filter GenResult.isOk gs := by
        simp [List.filter_cons, GenResult.isOk]
      have hfil2 : List.filter (fun g => !g.isOk) (GenResult.ok pk addr :: gs)
          = List.filter (fun g => !g.isOk) gs := by
        simp [List.filter_cons, GenResult.isOk]
      rw [hL, ih, hfil, hfil2]
      rfl
    | failure msg =>
      have hL : workerRun btcAddresses s (GenResult.failure msg :: gs)
          = workerRun btcAddresses
              { s with genFailureLogs := s.genFailureLogs + 1 } gs := rfl
      have hfil : List.filter GenResult.isOk (GenResult.failure msg :: gs)
          = List.filter GenResult.isOk gs := by
        simp [List.filter_cons, GenResult.isOk]
      have hfil2 : List.filter (fun g => !g.isOk) (GenResult.failure msg :: gs)
          = GenResult.failure msg :: List.filter (fun g => !g.isOk) gs := by
        simp [List.filter_cons, GenResult.isOk]
      rw [hL, ih, hfil, hfil2]
      simp only [List.length_cons, WorkerState.mk.injEq]
      refine ⟨trivial, trivial, trivial, ?_⟩
      omega

/-- C7: a generator failure in the worker loop is logged and the iteration
is skipped — no private-counter change, no shared-counter change, no
membership test or match submission — and the loop retries immediately with
no limit: a whole run equals the run over just the successful outcomes, with
the other observable state untouched by failures and exactly one log per
failure; no failure stops the worker or escalates. -/
theorem worker_generator_failures (btcAddresses : Finset String)
    (s : WorkerState) (gs : List GenResult) (msg : String) :
    (workerIter btcAddresses s (.failure msg)
        = { s with genFailureLogs := s.genFailureLogs + 1 }) ∧
    (workerRun btcAddresses s gs =
      { workerRun btcAddresses ⟨s.localCounter, s.shared, s.sentMatches, 0⟩
          (gs.filter GenResult.isOk) with
        genFailureLogs :=
          s.genFailureLogs + (gs.filter fun g => !g.isOk).length }) :=
  ⟨rfl, workerRun_decompose btcAddresses s gs⟩

/-- C9: in every invocation of the candidate-derivation function, the pool
interactions are balanced on every exit path: the generator-failure path
performs none (the early return happens before the buffer is borrowed), and
the success path performs exactly one `Get` followed by its matching `Put`
inside the same invocation — a borrowed buffer is never retained. -/
theorem bufferPool_balanced (newPrivateKey : Option (List Nat))
    (hash160 checksum4 : List Nat → List Nat)
    (base58Encode : List Nat → String) :
    ((generateKeyAndAddress newPrivateKey hash160 checksum4 base58Encode).poolEvents.count
          PoolEvent.get
        = (generateKeyAndAddress newPrivateKey hash160 checksum4
            base58Encode).poolEvents.count PoolEvent.put) ∧
    (newPrivateKey = none →
      (generateKeyAndAddress newPrivateKey hash160 checksum4
          base58Encode).poolEvents = []) ∧
    ((generateKeyAndAddress newPrivateKey hash160 checksum4
          base58Encode).poolEvents = []
      ∨ (generateKeyAndAddress newPrivateKey hash160 checksum4
          base58Encode).poolEvents = [PoolEvent.get, PoolEvent.put]) := by
  cases newPrivateKey with
  | none => exact ⟨rfl, fun _ => rfl, Or.inl rfl⟩
  | some pk =>
    refine ⟨?_, ?_, Or.inr rfl⟩
    · show ([PoolEvent.get, PoolEvent.put] : List PoolEvent).count PoolEvent.get
          = ([PoolEvent.get, PoolEvent.put] : List PoolEvent).count PoolEvent.put
      decide
    · intro h
      exact Option.noConfusion h

end BtcBrute
